import Mathlib

/-!
Verification development for the BrochAI repository.

The repository ships a React frontend (`src/App.jsx` and its components,
plus a standalone `BrochAI` component) in front of a brochure-generation
pipeline. The frontend handlers are embedded directly from the JSX
source. The backend pipeline modules named in the README
(`scrape.py`, `ai_services.py`, `dynamic_pdf_generator.py`, `main.py`)
are not part of the provided sources, so the pipeline components
(SiteFetcher, ContentExtractor, NarrativeEnricher, BrochureAssembler,
GenerationPipeline) are modelled from the specification.
-/

/-! ## Frontend state (src/App.jsx and the standalone BrochAI component) -/

/-- The React state of the `App` / `BrochAI` components:
`companyName`, `companyUrl`, `loading`, `success`, `mounted`
(`useState` hooks in src/App.jsx lines 10-14 and part_004 lines 10-14). -/
structure AppState where
  companyName : String
  companyUrl : String
  loading : Bool
  success : Bool
  mounted : Bool
deriving DecidableEq, Repr

/-- HTTP method of an outgoing request. Only POST is used by the app. -/
inductive Method where
  | POST
deriving DecidableEq, Repr

/-- An outgoing HTTP request as built by `handleSubmit`:
target URL, method, content type and the fields of the JSON body
(in the order they are written into `JSON.stringify`). -/
structure Request where
  url : String
  method : Method
  contentType : String
  bodyFields : List (String × String)
deriving DecidableEq, Repr

/-- The possible ways the `await fetch(...)` / `await response.blob()`
sequence in `handleSubmit` can settle:
the fetch itself rejects (network error), the fetch resolves with a
response (`ok` flag plus body bytes), or the response arrives but
reading the blob rejects. -/
inductive FetchOutcome where
  | networkError
  | response (ok : Bool) (blob : List Nat)
  | blobFailure
deriving DecidableEq, Repr

/-- What one run of `handleSubmit` produces: the final component state,
the request that was issued, the file delivered to the user via the
synthetic anchor click (filename and bytes), if any, and whether the
error alert was shown. -/
structure SubmitResult where
  state : AppState
  request : Request
  downloaded : Option (String × List Nat)
  alerted : Bool
deriving DecidableEq, Repr

/-- Embedding of `handleSubmit` from src/App.jsx lines 34-76.
It sets `loading := true`, `success := false`, POSTs the company name
and URL as JSON to `/generate-brochure`; a thrown error anywhere
(network failure, non-ok response, blob failure) is caught, alerts, and
delivers nothing; on an ok response the blob is downloaded under the
name `companyName ++ "_brochure.pdf"` and `success := true`; the
`finally` block always resets `loading := false`. -/
def handleSubmit (st : AppState) (outcome : FetchOutcome) : SubmitResult :=
  let st1 := { st with loading := true, success := false }
  let req : Request :=
    { url := "/generate-brochure"
      method := .POST
      contentType := "application/json"
      bodyFields := [("companyName", st.companyName), ("companyUrl", st.companyUrl)] }
  match outcome with
  | .networkError =>
      { state := { st1 with loading := false }
        request := req, downloaded := none, alerted := true }
  | .blobFailure =>
      { state := { st1 with loading := false }
        request := req, downloaded := none, alerted := true }
  | .response ok blob =>
      if ok then
        { state := { st1 with success := true, loading := false }
          request := req
          downloaded := some (st.companyName ++ "_brochure.pdf", blob)
          alerted := false }
      else
        { state := { st1 with loading := false }
          request := req, downloaded := none, alerted := true }

/-- Embedding of the "Create Another" button's onClick handler
(part_001 lines 55-64 and part_004 lines 196-205):
`setSuccess(false); setCompanyName(""); setCompanyUrl("")`. -/
def createAnother (st : AppState) : AppState :=
  { st with success := false, companyName := "", companyUrl := "" }

/-- What one run of the standalone `BrochAI` component's submit handler
produces: final state, the list of requests it issued, the file it
delivered, and the delay in milliseconds of its `setTimeout`. -/
structure BrochSubmitResult where
  state : AppState
  requests : List Request
  downloaded : Option (String × List Nat)
  delayMs : Nat
deriving DecidableEq, Repr

/-- Embedding of `handleSubmit` of the standalone `BrochAI` component
(part_004 lines 20-28): `setLoading(true); setSuccess(false);`
then after a 2000 ms `setTimeout`, `setLoading(false); setSuccess(true)`.
No fetch is issued and nothing is downloaded. -/
def brochAiHandleSubmit (st : AppState) : BrochSubmitResult :=
  { state := { st with loading := false, success := true }
    requests := []
    downloaded := none
    delayMs := 2000 }

/-! ## Pipeline data model

Modelled from the spec: the pipeline source files (`scrape.py`,
`ai_services.py`, `dynamic_pdf_generator.py`, `main.py`) are not among
the provided sources, so the definitions below follow the
specification's component contracts (its sections 3, 4 and 7). -/

/-- Modelled from the spec: the fixed page-category enum of the
`SiteContent` data model (home / about / product / contact / other). -/
inductive PageCategory where
  | home
  | about
  | product
  | contact
  | other
deriving DecidableEq, Repr

/-- Modelled from the spec: a candidate internal link discovered on a
fetched page, carrying its anchor text and its same-domain path. -/
structure Link where
  anchorText : String
  path : String
deriving DecidableEq, Repr

/-- Modelled from the spec: one raw fetched page — its URL, title, the
text blocks obtained by structural segmentation (boilerplate already
stripped), and the internal links it exposes. -/
structure RawPage where
  url : String
  title : String
  blocks : List String
  links : List Link
deriving DecidableEq, Repr

/-- Boolean prefix test on character lists. -/
def charsStartWith : List Char → List Char → Bool
  | [], _ => true
  | _ :: _, [] => false
  | a :: as, b :: bs => a == b && charsStartWith as bs

/-- Boolean segment-containment test on character lists. -/
def charsContain (pat : List Char) : List Char → Bool
  | [] => charsStartWith pat []
  | c :: rest => charsStartWith pat (c :: rest) || charsContain pat rest

/-- ASCII lowercasing of one character. -/
def lowerChar (c : Char) : Char :=
  if 'A' ≤ c && c ≤ 'Z' then Char.ofNat (c.toNat + 32) else c

/-- Case-insensitive substring test used by the keyword heuristics. -/
def strContains (s pat : String) : Bool :=
  charsContain (pat.toList.map lowerChar) (s.toList.map lowerChar)

/-- Boolean prefix test on strings. -/
def strStartsWith (s pat : String) : Bool :=
  charsStartWith pat.toList s.toList

/-- Boolean suffix test on strings. -/
def strEndsWith (s pat : String) : Bool :=
  charsStartWith pat.toList.reverse s.toList.reverse

/-- Drop the final character of a string. -/
def strDropLast (s : String) : String :=
  String.mk s.toList.dropLast

/-- Modelled from the spec: the keyword token sets that mark a link as
high-value (about / product-service / contact categories). -/
def priorityKeywords : List String := ["about", "product", "service", "contact"]

/-- Modelled from the spec: a link is high-value when its anchor text or
path suggests the about, product/service or contact categories. -/
def linkIsPriority (l : Link) : Bool :=
  priorityKeywords.any (fun kw => strContains l.anchorText kw || strContains l.path kw)

/-- Modelled from the spec: candidate links ordered with high-value
(about/product/contact) links before arbitrary ones, truncated to `n`,
so that truncation never drops a high-value link in favour of an
arbitrary one. -/
def selectLinks (links : List Link) (n : Nat) : List Link :=
  (links.filter linkIsPriority ++ links.filter (fun l => !linkIsPriority l)).take n

/-- Modelled from the spec: root-URL normalization — scheme defaulting
to https, trailing slash trimmed. -/
def normalizeUrl (u : String) : String :=
  let u1 := if strStartsWith u ("http://") || strStartsWith u ("https://") then u
            else "https://" ++ u
  if strEndsWith u1 ("/") then strDropLast u1 else u1

/-- Modelled from the spec: SiteFetcher's contract
`fetch(rootUrl, maxPages, timeout)`. The argument `site` maps a URL or
path to the page it serves, `none` standing for a timed-out or non-2xx
fetch. The root is fetched first; if it fails the whole fetch fails
(`FetchRootFailed` upstream); otherwise up to `maxPages - 1` prioritized
same-domain links are fetched, per-page failures being skipped rather
than fatal. -/
def fetchSite (site : String → Option RawPage) (rootUrl : String) (maxPages : Nat) :
    Option (List RawPage) :=
  match site (normalizeUrl rootUrl) with
  | none => none
  | some root =>
      some (root :: (selectLinks root.links (maxPages - 1)).filterMap (fun l => site l.path))

/-! ## ContentExtractor -/

/-- Modelled from the spec: the tunable minimum character-length
threshold of the anti-noise filter. -/
def minBlockChars : Nat := 25

/-- Modelled from the spec: a text block qualifies when it reaches the
minimum character-length threshold. -/
def qualifies (b : String) : Bool := minBlockChars ≤ b.length

/-- Modelled from the spec: whitespace normalization applied before the
exact-text deduplication comparison. -/
def normalizeWs (s : String) : String :=
  String.mk (s.toList.filter (fun c => !c.isWhitespace))

/-- Modelled from the spec: the deterministic page-category heuristic
over URL path and page-title keyword token sets; default is `other`. -/
def categorize (url title : String) : PageCategory :=
  if strContains url ("about") || strContains title ("about") then .about
  else if strContains url ("contact") || strContains title ("contact") then .contact
  else if strContains url ("product") || strContains title ("product") ||
          strContains url ("service") || strContains title ("service") ||
          strContains url ("pricing") || strContains title ("pricing") then .product
  else .other

/-- Modelled from the spec: one page of the normalized `SiteContent`
record — URL, title, detected category, surviving text blocks and the
discovered internal links. -/
structure PageContent where
  url : String
  title : String
  category : PageCategory
  blocks : List String
  links : List String
deriving DecidableEq, Repr

/-- Modelled from the spec: the `SiteContent` record produced by
ContentExtractor. -/
structure SiteContent where
  rootUrl : String
  pages : List PageContent
deriving DecidableEq, Repr

/-- Modelled from the spec: the error taxonomy of the pipeline. -/
inductive FailureReason where
  | FetchRootFailed
  | ExtractionEmpty
  | EnrichmentUnavailable
  | EnrichmentInvalid
  | RenderFailure
  | Timeout
deriving DecidableEq, Repr

/-- Modelled from the spec: deduplication of near-identical text blocks
by exact-text comparison after whitespace normalization. `seen` carries
the normalized forms of every block kept so far (also across pages);
the result is the kept blocks of this page and the grown accumulator. -/
def dedupBlocks (seen : List String) : List String → List String × List String
  | [] => ([], seen)
  | b :: bs =>
      if seen.contains (normalizeWs b) then dedupBlocks seen bs
      else
        (b :: (dedupBlocks (normalizeWs b :: seen) bs).1,
         (dedupBlocks (normalizeWs b :: seen) bs).2)

/-- Modelled from the spec: per-page extraction — length filter, then
cross-page deduplication threading the `seen` accumulator, plus the
category heuristic. The final accumulator's length equals the number of
blocks kept across all pages. -/
def extractPagesAux (seen : List String) : List RawPage → List PageContent × List String
  | [] => ([], seen)
  | p :: ps =>
      ({ url := p.url
         title := p.title
         category := categorize p.url p.title
         blocks := (dedupBlocks seen (p.blocks.filter qualifies)).1
         links := p.links.map (fun l => l.path) } ::
          (extractPagesAux (dedupBlocks seen (p.blocks.filter qualifies)).2 ps).1,
       (extractPagesAux (dedupBlocks seen (p.blocks.filter qualifies)).2 ps).2)

/-- Modelled from the spec: ContentExtractor's contract
`extract(pages) → SiteContent`, failing with `ExtractionEmpty` when
zero text blocks remain across all pages after filtering. -/
def extract (pages : List RawPage) : Except FailureReason SiteContent :=
  if (extractPagesAux [] pages).2.isEmpty then .error .ExtractionEmpty
  else .ok { rootUrl := ((pages.head?).map (fun p => p.url)).getD ""
             pages := (extractPagesAux [] pages).1 }

/-! ## NarrativeEnricher -/

/-- Modelled from the spec: the fixed section-type enum of
`BrochureContent`. -/
inductive SectionType where
  | cover
  | about
  | offerings
  | valueProposition
  | callToAction
  | contact
deriving DecidableEq, Repr

/-- Modelled from the spec: one `Section` of the brochure copy —
section type, heading, paragraphs and optional bullets. -/
structure Section where
  sectionType : SectionType
  heading : String
  paragraphs : List String
  bullets : Option (List String)
deriving DecidableEq, Repr

/-- Modelled from the spec: the `BrochureContent` record produced by
NarrativeEnricher — an ordered sequence of sections. -/
structure BrochureContent where
  sections : List Section
deriving DecidableEq, Repr

/-- Modelled from the spec: a section type closes the brochure when it
is `callToAction` or `contact`. -/
def isClosing : SectionType → Bool
  | .callToAction => true
  | .contact => true
  | _ => false

/-- Modelled from the spec: the cover/closing invariant on a section
sequence — exactly one `cover` section, in first position, and exactly
one `callToAction` or `contact` section, in last position. -/
def checkInvariant (secs : List Section) : Bool :=
  match secs with
  | [] => false
  | first :: _ =>
      first.sectionType == .cover &&
      (match secs.getLast? with
       | some last => isClosing last.sectionType
       | none => false) &&
      secs.countP (fun s => s.sectionType == .cover) == 1 &&
      secs.countP (fun s => isClosing s.sectionType) == 1

/-- Modelled from the spec: the bounded size of the serialized prompt
context. -/
def promptBudget : Nat := 4000

/-- Modelled from the spec: serialization of `SiteContent` into a
bounded-size prompt context, `other`-category pages placed last so they
are truncated first. -/
def serializeSite (sc : SiteContent) (name : String) : String :=
  (name ++ "|" ++ sc.rootUrl ++ "|" ++
    String.intercalate ("|")
      (((sc.pages.filter (fun p => p.category != .other)) ++
        (sc.pages.filter (fun p => p.category == .other))).map
        (fun p => String.intercalate (" ") p.blocks))).take promptBudget

/-- Modelled from the spec: schema/invariant validation of a backend
response, with exactly one corrective retry under a stricter
instruction before failing with `EnrichmentInvalid`. Attempt index 2 is
the corrective call. -/
def enrichValidated (backend : Nat → String → Option (List Section)) (prompt : String)
    (secs : List Section) : Except FailureReason BrochureContent :=
  if checkInvariant secs then .ok ⟨secs⟩
  else
    match backend 2 ("STRICT " ++ prompt) with
    | none => .error .EnrichmentUnavailable
    | some secs2 =>
        if checkInvariant secs2 then .ok ⟨secs2⟩ else .error .EnrichmentInvalid

/-- Modelled from the spec: NarrativeEnricher's contract
`enrich(SiteContent, companyName) → BrochureContent`. The backend is a
function of the attempt index and the prompt, `none` standing for an
unreachable backend or transport/auth error; attempt 0 is the first
call, attempt 1 the bounded availability retry, after which the stage
fails with `EnrichmentUnavailable`. -/
def enrich (backend : Nat → String → Option (List Section)) (sc : SiteContent)
    (name : String) : Except FailureReason BrochureContent :=
  match backend 0 (serializeSite sc name) with
  | some secs => enrichValidated backend (serializeSite sc name) secs
  | none =>
      match backend 1 (serializeSite sc name) with
      | some secs => enrichValidated backend (serializeSite sc name) secs
      | none => .error .EnrichmentUnavailable

/-! ## BrochureAssembler -/

/-- Modelled from the spec: rendered capacity of one physical page, in
characters — the tunable driving pagination. -/
def charsPerPage : Nat := 1800

/-- Modelled from the spec: the content volume of a section — heading,
paragraphs and bullets. -/
def sectionChars (s : Section) : Nat :=
  s.heading.length + (s.paragraphs.map String.length).sum +
    (match s.bullets with
     | none => 0
     | some bs => (bs.map String.length).sum)

/-- Modelled from the spec: pagination — a section spans as many
physical pages as its content volume requires, and at least one. -/
def pagesForSection (s : Section) : Nat :=
  max 1 ((sectionChars s + charsPerPage - 1) / charsPerPage)

/-- Modelled from the spec: template choice is a pure function of
section type and position; the first section always uses the cover
template regardless of its declared type. -/
def templateFor (pos : Nat) (t : SectionType) : SectionType :=
  if pos == 0 then .cover else t

/-- Modelled from the spec: the `BrochureDocument` metadata — page
count, rendered section order (the layout), generation timestamp and
company name. -/
structure BrochureDocument where
  pageCount : Nat
  sectionOrder : List SectionType
  generatedAt : Nat
  companyName : String
deriving DecidableEq, Repr

/-- Modelled from the spec: BrochureAssembler's contract
`assemble(BrochureContent, companyName) → BrochureDocument`. `now` is
the timestamp stamped into the document's content (`generatedAt`);
layout — page count and section ordering — is computed from the content
alone. -/
def assemble (bc : BrochureContent) (name : String) (now : Nat) : BrochureDocument :=
  { pageCount := (bc.sections.map pagesForSection).sum
    sectionOrder := bc.sections.enum.map (fun pair => templateFor pair.1 pair.2.sectionType)
    generatedAt := now
    companyName := name }

/-! ## GenerationPipeline -/

/-- Modelled from the spec: the job lifecycle state machine.
`Completed` carries the `BrochureDocument`; `Failed` carries the
originating stage's error kind. -/
inductive JobState where
  | Created
  | Fetching
  | Extracting
  | Enriching
  | Assembling
  | Completed (doc : BrochureDocument)
  | Failed (reason : FailureReason)
deriving DecidableEq, Repr

/-- Modelled from the spec: GenerationPipeline — the four stages run
strictly sequentially and one-directionally; the terminal state is
`Completed` with the document or `Failed` with the stage's error kind. -/
def runPipeline (site : String → Option RawPage)
    (backend : Nat → String → Option (List Section))
    (companyName companyUrl : String) (maxPages : Nat) (now : Nat) : JobState :=
  match fetchSite site companyUrl maxPages with
  | none => .Failed .FetchRootFailed
  | some pages =>
      match extract pages with
      | .error r => .Failed r
      | .ok sc =>
          match enrich backend sc companyName with
          | .error r => .Failed r
          | .ok bc => .Completed (assemble bc companyName now)

/-! ## Concrete fixtures used by the witnesses -/

/-- A cover section fixture. -/
def secCover : Section :=
  { sectionType := .cover
    heading := "Acme Technologies"
    paragraphs := ["Precision robotics for growing manufacturers."]
    bullets := none }

/-- An about section fixture. -/
def secAbout : Section :=
  { sectionType := .about
    heading := "Who we are"
    paragraphs := ["Founded in 2010, Acme serves hundreds of factories."]
    bullets := none }

/-- A contact (closing) section fixture. -/
def secContact : Section :=
  { sectionType := .contact
    heading := "Get in touch"
    paragraphs := ["Write to hello at acme dot com."]
    bullets := some ["Phone", "Mail"] }

/-- A schema-valid section sequence fixture. -/
def validSections : List Section := [secCover, secAbout, secContact]

/-- A backend fixture whose first response is out of order (cover not
first) and whose corrective-retry response is valid. -/
def demoBackend : Nat → String → Option (List Section) := fun attempt _ =>
  if attempt == 0 then some [secAbout, secCover, secContact]
  else some validSections

/-- A backend fixture that always answers with a valid sequence. -/
def steadyBackend : Nat → String → Option (List Section) := fun _ _ =>
  some validSections

/-- A minimal `SiteContent` fixture. -/
def demoSite : SiteContent :=
  { rootUrl := "https://acme.com", pages := [] }

/-- Root page fixture of the small demo site. -/
def acmeRoot : RawPage :=
  { url := "https://acme.com"
    title := "Acme home"
    blocks := ["Acme builds precision industrial robots for small factories."]
    links := [{ anchorText := "About us", path := "/about" }] }

/-- Sub-page fixture of the small demo site. -/
def acmeAbout : RawPage :=
  { url := "/about"
    title := "About Acme"
    blocks := ["Founded in 2010, Acme serves hundreds of manufacturers."]
    links := [] }

/-- The small demo site as a fetch function. -/
def demoSitePages : String → Option RawPage := fun u =>
  if u == "https://acme.com" then some acmeRoot
  else if u == "/about" then some acmeAbout
  else none

/-- The pages the SiteFetcher model returns on the small demo site. -/
def demoFetched : List RawPage := [acmeRoot, acmeAbout]

/-- The 50 discoverable internal links of the oversized-site scenario:
three high-value links and 47 arbitrary ones. -/
def bigLinks : List Link :=
  { anchorText := "About us", path := "/about" } ::
  { anchorText := "Contact", path := "/contact" } ::
  { anchorText := "Products", path := "/products" } ::
  (List.range 47).map (fun i => { anchorText := "more", path := "/page" ++ toString i })

/-- Root page fixture of the oversized site. -/
def bigRoot : RawPage :=
  { url := "https://big.com"
    title := "Big home"
    blocks := ["Big Corp ships enterprise widgets to customers worldwide."]
    links := bigLinks }

/-- The oversized site as a fetch function: the root page plus a stub
page for every internal path. -/
def bigSite : String → Option RawPage := fun u =>
  if u == "https://big.com" then some bigRoot
  else some { url := u, title := "sub", blocks := [], links := [] }

/-- The pages the SiteFetcher model returns on the oversized site with
`maxPages = 5`. -/
def bigFetched : List RawPage := (fetchSite bigSite "https://big.com" 5).getD []

/-! ## Theorems about the frontend handlers -/

/-- Claim C2: if the backend response is not successful (`response.ok`
false), `handleSubmit` delivers no PDF, leaves `success` false, and the
caller receives only the error signal (the alert). -/
theorem submit_no_partial_document_on_error (st : AppState) (blob : List Nat) :
    (handleSubmit st (.response false blob)).downloaded = none ∧
    (handleSubmit st (.response false blob)).state.success = false ∧
    (handleSubmit st (.response false blob)).alerted = true := by
  refine ⟨rfl, rfl, rfl⟩

/-- Claim C3: every submission issues a POST to `/generate-brochure`
whose JSON body holds exactly the two fields `companyName` and
`companyUrl` with the strings the user entered, whatever the outcome. -/
theorem submit_request_shape (st : AppState) (outcome : FetchOutcome) :
    (handleSubmit st outcome).request =
      { url := "/generate-brochure"
        method := .POST
        contentType := "application/json"
        bodyFields := [("companyName", st.companyName), ("companyUrl", st.companyUrl)] } := by
  cases outcome with
  | networkError => rfl
  | blobFailure => rfl
  | response ok blob => cases ok <;> rfl

/-- Claim C4: on every successful generation the downloaded file's name
is the entered company name concatenated with the literal suffix
`_brochure.pdf`. -/
theorem submit_download_filename (st : AppState) (blob : List Nat) :
    (handleSubmit st (.response true blob)).downloaded =
      some (st.companyName ++ "_brochure.pdf", blob) := by
  rfl

/-- Claim C8: after `handleSubmit` terminates — ok response, non-ok
response, network error or blob failure — the `loading` flag is false:
the `finally` block always clears it. -/
theorem submit_clears_loading (st : AppState) (outcome : FetchOutcome) :
    (handleSubmit st outcome).state.loading = false := by
  cases outcome with
  | networkError => rfl
  | blobFailure => rfl
  | response ok blob => cases ok <;> rfl

/-- Claim C9: the "Create Another" button resets exactly `success`,
`companyName` and `companyUrl`, and leaves every other piece of state
(`loading`, `mounted`) unchanged. -/
theorem create_another_frame (st : AppState) :
    (createAnother st).success = false ∧
    (createAnother st).companyName = "" ∧
    (createAnother st).companyUrl = "" ∧
    (createAnother st).loading = st.loading ∧
    (createAnother st).mounted = st.mounted := by
  refine ⟨rfl, rfl, rfl, rfl, rfl⟩

/-- Claim C10: the standalone `BrochAI` component's submit handler
always ends with `success = true` after a fixed 2000 ms delay, issues
no request and delivers no PDF; it is not equivalent to App.jsx's
`handleSubmit`, which on the same state reports `success = false` when
the backend response is not ok. -/
theorem brochai_submit_not_equivalent (st : AppState) (blob : List Nat) :
    (brochAiHandleSubmit st).state.success = true ∧
    (brochAiHandleSubmit st).requests = [] ∧
    (brochAiHandleSubmit st).downloaded = none ∧
    (brochAiHandleSubmit st).delayMs = 2000 ∧
    (handleSubmit st (.response false blob)).state.success ≠
      (brochAiHandleSubmit st).state.success := by
  refine ⟨rfl, rfl, rfl, rfl, ?_⟩
  intro h
  simp [handleSubmit, brochAiHandleSubmit] at h

/-! ## Theorems about the modelled pipeline -/

/-- Claim C7: assembling the same `BrochureContent` at two different
times yields documents with identical page count and identical section
ordering — the layout is a deterministic function of the content, even
though the stamped `generatedAt` timestamp may differ. -/
theorem assemble_layout_deterministic (bc : BrochureContent) (name : String)
    (t1 t2 : Nat) :
    (assemble bc name t1).pageCount = (assemble bc name t2).pageCount ∧
    (assemble bc name t1).sectionOrder = (assemble bc name t2).sectionOrder := by
  refine ⟨rfl, rfl⟩

/-- Helper: the link selection never drops a high-value link while
keeping an arbitrary one — if some selected link is not high-value,
every high-value candidate was selected. -/
theorem selectLinks_keeps_priority (links : List Link) (n : Nat)
    (l2 : Link) (h2 : l2 ∈ selectLinks links n) (hnp : linkIsPriority l2 = false)
    (l1 : Link) (h1 : l1 ∈ links) (hp : linkIsPriority l1 = true) :
    l1 ∈ selectLinks links n := by
  unfold selectLinks at h2 ⊢
  rw [List.take_append_eq_append_take] at h2 ⊢
  rcases List.mem_append.mp h2 with hm | hm
  · have hmem := List.take_subset n _ hm
    have := (List.mem_filter.mp hmem).2
    rw [hnp] at this
    cases this
  · have hpos : 0 < n - (links.filter linkIsPriority).length := by
      rcases Nat.eq_zero_or_pos (n - (links.filter linkIsPriority).length) with h0 | h0
      · rw [h0, List.take_zero] at hm
        cases hm
      · exact h0
    have hlen : (links.filter linkIsPriority).length ≤ n := by omega
    refine List.mem_append.mpr (Or.inl ?_)
    rw [List.take_of_length_le hlen]
    exact List.mem_filter.mpr ⟨h1, hp⟩

/-- Claim C6: when the root fetch succeeds and `maxPages ≥ 1`,
SiteFetcher returns at most `maxPages` pages (the root plus up to
`maxPages - 1` sub-pages), and whenever an arbitrary link was selected
for fetching, every high-value (about/product/contact) link was
selected too. -/
theorem siteFetcher_bounded_and_prioritized
    (site : String → Option RawPage) (rootUrl : String) (maxPages : Nat)
    (pages : List RawPage)
    (h1 : 1 ≤ maxPages)
    (h2 : fetchSite site rootUrl maxPages = some pages) :
    pages.length ≤ maxPages ∧
    ∀ root, site (normalizeUrl rootUrl) = some root →
      ∀ l2 ∈ selectLinks root.links (maxPages - 1), linkIsPriority l2 = false →
        ∀ l1 ∈ root.links, linkIsPriority l1 = true →
          l1 ∈ selectLinks root.links (maxPages - 1) := by
  constructor
  · cases hsite : site (normalizeUrl rootUrl) with
    | none =>
        rw [fetchSite, hsite] at h2
        cases h2
    | some root =>
        rw [fetchSite, hsite] at h2
        have hpages :
            pages = root ::
              (selectLinks root.links (maxPages - 1)).filterMap (fun l => site l.path) := by
          cases h2
          rfl
        rw [hpages, List.length_cons]
        have hA := List.length_filterMap_le (fun l => site l.path)
          (selectLinks root.links (maxPages - 1))
        have hB : (selectLinks root.links (maxPages - 1)).length ≤ maxPages - 1 := by
          unfold selectLinks
          exact List.length_take_le _ _
        omega
  · intro root _ l2 hmem hnp l1 hl1 hp
    exact selectLinks_keeps_priority root.links (maxPages - 1) l2 hmem hnp l1 hl1 hp

/-- Helper: deduplication only ever grows the accumulator of seen
normalized blocks. -/
theorem dedupBlocks_seen_le (bs : List String) :
    ∀ seen : List String, seen.length ≤ (dedupBlocks seen bs).2.length := by
  induction bs with
  | nil =>
      intro seen
      exact le_refl _
  | cons b rest ih =>
      intro seen
      unfold dedupBlocks
      by_cases hc : seen.contains (normalizeWs b) = true
      · rw [if_pos hc]
        exact ih seen
      · rw [if_neg hc]
        exact le_trans (Nat.le_succ _) (ih (normalizeWs b :: seen))

/-- Helper: running deduplication on a nonempty block list leaves a
nonempty accumulator. -/
theorem dedupBlocks_seen_pos (b : String) (bs seen : List String) :
    1 ≤ (dedupBlocks seen (b :: bs)).2.length := by
  unfold dedupBlocks
  by_cases hc : seen.contains (normalizeWs b) = true
  · rw [if_pos hc]
    have hne : 1 ≤ seen.length := by
      cases seen with
      | nil => exact Bool.noConfusion hc
      | cons a as => simp
    exact le_trans hne (dedupBlocks_seen_le bs seen)
  · rw [if_neg hc]
    have hone : 1 ≤ (normalizeWs b :: seen).length := by simp
    exact le_trans hone (dedupBlocks_seen_le bs _)

/-- Helper: extraction only ever grows the accumulator of seen
normalized blocks. -/
theorem extractPagesAux_seen_le (ps : List RawPage) :
    ∀ seen : List String, seen.length ≤ (extractPagesAux seen ps).2.length := by
  induction ps with
  | nil =>
      intro seen
      exact le_refl _
  | cons p rest ih =>
      intro seen
      unfold extractPagesAux
      exact le_trans (dedupBlocks_seen_le _ seen) (ih _)

/-- Helper: if some page holds a qualifying block, extraction keeps at
least one block across all pages. -/
theorem extractPagesAux_seen_pos (ps : List RawPage) :
    ∀ seen : List String, (∃ p ∈ ps, ∃ b ∈ p.blocks, qualifies b = true) →
      1 ≤ (extractPagesAux seen ps).2.length := by
  induction ps with
  | nil =>
      intro seen h
      obtain ⟨p, hp, _⟩ := h
      cases hp
  | cons p rest ih =>
      intro seen h
      obtain ⟨q, hq, b, hb, hqual⟩ := h
      unfold extractPagesAux
      rcases List.mem_cons.mp hq with rfl | hq2
      · have hbf : b ∈ q.blocks.filter qualifies := List.mem_filter.mpr ⟨hb, hqual⟩
        have hfne : q.blocks.filter qualifies ≠ [] := List.ne_nil_of_mem hbf
        have h1 : 1 ≤ (dedupBlocks seen (q.blocks.filter qualifies)).2.length := by
          cases hf : q.blocks.filter qualifies with
          | nil => exact absurd hf hfne
          | cons c cs => exact dedupBlocks_seen_pos c cs seen
        exact le_trans h1 (extractPagesAux_seen_le rest _)
      · exact ih _ ⟨q, hq2, b, hb, hqual⟩

/-- Helper: a site holding at least one qualifying text block extracts
successfully. -/
theorem extract_ok_of_qualifying (pages : List RawPage)
    (h : ∃ p ∈ pages, ∃ b ∈ p.blocks, qualifies b = true) :
    ∃ sc, extract pages = .ok sc := by
  have hpos := extractPagesAux_seen_pos pages [] h
  have hne : ¬((extractPagesAux [] pages).2.isEmpty = true) := by
    cases hl : (extractPagesAux [] pages).2 with
    | nil =>
        rw [hl] at hpos
        intro _
        exact absurd hpos (by decide)
    | cons a as =>
        intro hi
        exact Bool.noConfusion hi
  exact ⟨{ rootUrl := ((pages.head?).map (fun p => p.url)).getD ""
           pages := (extractPagesAux [] pages).1 },
         by unfold extract; rw [if_neg hne]⟩

/-- Helper: unfolding the cover/closing invariant into its four
positional and counting facts. -/
theorem checkInvariant_spec (secs : List Section) (h : checkInvariant secs = true) :
    (∃ first rest, secs = first :: rest ∧ first.sectionType = SectionType.cover) ∧
    (∃ last, secs.getLast? = some last ∧ isClosing last.sectionType = true) ∧
    secs.countP (fun s => s.sectionType == SectionType.cover) = 1 ∧
    secs.countP (fun s => isClosing s.sectionType) = 1 := by
  cases secs with
  | nil => exact Bool.noConfusion h
  | cons first rest =>
      unfold checkInvariant at h
      rw [Bool.and_eq_true, Bool.and_eq_true, Bool.and_eq_true] at h
      obtain ⟨⟨⟨h1, h2⟩, h3⟩, h4⟩ := h
      refine ⟨⟨first, rest, rfl, beq_iff_eq.mp h1⟩, ?_, beq_iff_eq.mp h3, beq_iff_eq.mp h4⟩
      cases hl : (first :: rest).getLast? with
      | none =>
          rw [hl] at h2
          exact Bool.noConfusion h2
      | some last =>
          rw [hl] at h2
          exact ⟨last, rfl, h2⟩

/-- Helper: the validation step only ever returns content satisfying
the cover/closing invariant. -/
theorem enrichValidated_ok (backend : Nat → String → Option (List Section))
    (prompt : String) (secs : List Section) (bc : BrochureContent)
    (h : enrichValidated backend prompt secs = .ok bc) :
    checkInvariant bc.sections = true := by
  unfold enrichValidated at h
  by_cases h1 : checkInvariant secs = true
  · rw [if_pos h1] at h
    injection h with h2
    rw [← h2]
    exact h1
  · rw [if_neg h1] at h
    cases hb : backend 2 ("STRICT " ++ prompt) with
    | none =>
        rw [hb] at h
        exact Except.noConfusion h
    | some secs2 =>
        rw [hb] at h
        have h2 : (if checkInvariant secs2 = true then
              (Except.ok ⟨secs2⟩ : Except FailureReason BrochureContent)
            else Except.error FailureReason.EnrichmentInvalid) = Except.ok bc := h
        by_cases hc : checkInvariant secs2 = true
        · rw [if_pos hc] at h2
          injection h2 with h3
          rw [← h3]
          exact hc
        · rw [if_neg hc] at h2
          exact Except.noConfusion h2

/-- Helper: a backend whose first response is available and valid makes
the enrichment stage succeed with invariant-satisfying content. -/
theorem enrich_ok_of_backend (backend : Nat → String → Option (List Section))
    (sc : SiteContent) (name : String)
    (hb : ∀ prompt, ∃ secs, backend 0 prompt = some secs ∧ checkInvariant secs = true) :
    ∃ bc, enrich backend sc name = .ok bc ∧ checkInvariant bc.sections = true := by
  obtain ⟨secs, hs, hinv⟩ := hb (serializeSite sc name)
  refine ⟨⟨secs⟩, ?_, hinv⟩
  unfold enrich
  rw [hs]
  show enrichValidated backend (serializeSite sc name) secs = Except.ok ⟨secs⟩
  unfold enrichValidated
  rw [if_pos hinv]

/-- Claim C5: whenever the enrichment stage succeeds, the returned
`BrochureContent` has exactly one `cover` section, in first position,
and exactly one `callToAction` or `contact` section, in last position —
whatever order the backend returned sections in, since the corrective
retry enforces the invariant. -/
theorem enricher_invariant (backend : Nat → String → Option (List Section))
    (sc : SiteContent) (name : String) (bc : BrochureContent)
    (h : enrich backend sc name = .ok bc) :
    (∃ first rest, bc.sections = first :: rest ∧ first.sectionType = SectionType.cover) ∧
    (∃ last, bc.sections.getLast? = some last ∧ isClosing last.sectionType = true) ∧
    bc.sections.countP (fun s => s.sectionType == SectionType.cover) = 1 ∧
    bc.sections.countP (fun s => isClosing s.sectionType) = 1 := by
  apply checkInvariant_spec
  unfold enrich at h
  cases hb0 : backend 0 (serializeSite sc name) with
  | some secs =>
      rw [hb0] at h
      exact enrichValidated_ok backend _ secs bc h
  | none =>
      rw [hb0] at h
      cases hb1 : backend 1 (serializeSite sc name) with
      | some secs =>
          rw [hb1] at h
          exact enrichValidated_ok backend _ secs bc h
      | none =>
          rw [hb1] at h
          exact Except.noConfusion h

/-- Witness for C5: on a backend whose first answer is out of order
(`about` before `cover`) and whose corrective retry is valid, the
enricher succeeds and its output satisfies the invariant. -/
theorem enricher_invariant_witness :
    (∃ first rest, (BrochureContent.mk validSections).sections = first :: rest ∧
        first.sectionType = SectionType.cover) ∧
    (∃ last, (BrochureContent.mk validSections).sections.getLast? = some last ∧
        isClosing last.sectionType = true) ∧
    (BrochureContent.mk validSections).sections.countP
        (fun s => s.sectionType == SectionType.cover) = 1 ∧
    (BrochureContent.mk validSections).sections.countP
        (fun s => isClosing s.sectionType) = 1 :=
  enricher_invariant demoBackend demoSite "Acme" ⟨validSections⟩ (by rfl)

/-- Helper: assembling content with at least one section yields at
least one page, since every section needs at least one page. -/
theorem pageCount_pos (bc : BrochureContent) (name : String) (now : Nat)
    (h : bc.sections ≠ []) : 1 ≤ (assemble bc name now).pageCount := by
  cases hs : bc.sections with
  | nil => exact absurd hs h
  | cons s rest =>
      show 1 ≤ (bc.sections.map pagesForSection).sum
      rw [hs]
      simp only [List.map_cons, List.sum_cons]
      have h1 : 1 ≤ pagesForSection s := le_max_left 1 _
      omega

/-- Claim C1: on a valid input whose website root fetch succeeds and
holds at least one page with at least one qualifying text block, and
whose enrichment backend answers with schema-valid content, the
pipeline terminates in the `Completed` state with a document whose page
count is at least 1. -/
theorem pipeline_completes
    (site : String → Option RawPage) (backend : Nat → String → Option (List Section))
    (companyName companyUrl : String) (maxPages now : Nat)
    (pages : List RawPage)
    (hfetch : fetchSite site companyUrl maxPages = some pages)
    (hcontent : ∃ p ∈ pages, ∃ b ∈ p.blocks, qualifies b = true)
    (hbackend : ∀ prompt, ∃ secs, backend 0 prompt = some secs ∧ checkInvariant secs = true) :
    ∃ doc, runPipeline site backend companyName companyUrl maxPages now =
        JobState.Completed doc ∧ 1 ≤ doc.pageCount := by
  obtain ⟨sc, hsc⟩ := extract_ok_of_qualifying pages hcontent
  obtain ⟨bc, hbc, hinv⟩ := enrich_ok_of_backend backend sc companyName hbackend
  refine ⟨assemble bc companyName now, ?_, ?_⟩
  · unfold runPipeline
    rw [hfetch]
    show (match extract pages with
          | .error r => JobState.Failed r
          | .ok sc =>
              match enrich backend sc companyName with
              | .error r => JobState.Failed r
              | .ok bc => JobState.Completed (assemble bc companyName now)) =
        JobState.Completed (assemble bc companyName now)
    rw [hsc]
    show (match enrich backend sc companyName with
          | .error r => JobState.Failed r
          | .ok bc => JobState.Completed (assemble bc companyName now)) =
        JobState.Completed (assemble bc companyName now)
    rw [hbc]
  · apply pageCount_pos
    intro h0
    rw [h0] at hinv
    exact Bool.noConfusion hinv

/-- Witness for C1: the small demo site (root plus an about page, each
with one qualifying block) and an always-valid backend drive the
pipeline to `Completed` with a positive page count. -/
theorem pipeline_completes_witness :
    ∃ doc, runPipeline demoSitePages steadyBackend "Acme" "https://acme.com" 3 7 =
        JobState.Completed doc ∧ 1 ≤ doc.pageCount :=
  pipeline_completes demoSitePages steadyBackend "Acme" "https://acme.com" 3 7
    demoFetched (by decide) (by decide)
    (fun _ => ⟨validSections, rfl, by decide⟩)

/-- Witness for C6: the oversized site with 50 discoverable internal
links and `maxPages = 5` yields exactly 5 pages, within the bound given
by the theorem. -/
theorem siteFetcher_bounded_and_prioritized_witness :
    (1 ≤ 5 ∧ fetchSite bigSite "https://big.com" 5 = some bigFetched) ∧
    bigFetched.length ≤ 5 ∧ bigFetched.length = 5 :=
  ⟨⟨by decide, by decide⟩,
   (siteFetcher_bounded_and_prioritized bigSite "https://big.com" 5 bigFetched
      (by decide) (by decide)).1,
   by decide⟩
